import Mathlib

/-!
# Verification of the guacamole-server terminal display core

This development embeds the screen-model layer of the guacamole-server
terminal renderer (`src/terminal/terminal/display.h` and the behavior of its
implementation as specified in `spec.md`): the pending-operation grid, its
coalescing and flush semantics, the palette, geometry/resize, font metrics,
the selection overlay, and the "dup" resync protocol for joining viewers.

The repository snapshot provides the interface header `display.h` only; the
function bodies of `display.c` are not part of the snapshot. Definitions
below therefore carry doc comments starting `Modelled from the spec:` and
follow the specification's description of each operation, faithful to the
declarations and field/ enum definitions of `display.h`.
-/

/-- A terminal color: three 8-bit channels. Value type, compared by
equality (`guac_terminal_color` of the source, modulo the palette index
bookkeeping which the spec treats as pure color data). -/
structure guac_terminal_color where
  red : Nat
  green : Nat
  blue : Nat
deriving DecidableEq, Repr

/-- Style attribute bitset of a character cell (bold, underline, reverse,
blink), as in the spec's Character Cell data model. -/
structure guac_terminal_attributes where
  bold : Bool
  underline : Bool
  reverse : Bool
  blink : Bool
deriving DecidableEq, Repr

/-- A character cell: displayable symbol (codepoint), foreground and
background colors, style attributes, and display width in columns
(`guac_terminal_char` of the source). -/
structure guac_terminal_char where
  value : Int
  foreground : guac_terminal_color
  background : guac_terminal_color
  attributes : guac_terminal_attributes
  width : Nat
deriving DecidableEq, Repr

/-- A pending operation for one cell: the tagged pairing of a
`guac_terminal_operation_type` with the parameters that type needs, as in
`guac_terminal_operation` of `display.h` (`type` together with `character`
for `GUAC_CHAR_SET` and `row`/`column` for `GUAC_CHAR_COPY`). -/
inductive guac_terminal_operation where
  | GUAC_CHAR_NOP : guac_terminal_operation
  | GUAC_CHAR_COPY (row : Int) (column : Int) : guac_terminal_operation
  | GUAC_CHAR_SET (character : guac_terminal_char) : guac_terminal_operation
deriving DecidableEq, Repr

/-- A resolved call issued to the display surface adapter during flush:
either drawing a character at a cell, or copying committed content from a
source cell to a destination cell. -/
inductive guac_surface_call where
  | draw (row : Int) (column : Int) (character : guac_terminal_char)
  | copy (src_row : Int) (src_column : Int) (dst_row : Int) (dst_column : Int)
deriving DecidableEq, Repr

/-- The terminal display state (`guac_terminal_display` of `display.h`):
operation grid, geometry in cells and pixels, font metrics, palette,
selection state, the `unflushed_set` flag, and the committed surface
content (the externally-owned surface, modelled as the mapping from cell
coordinates to the character most recently flushed there). -/
structure guac_terminal_display where
  width : Int
  height : Int
  operations : Int → Int → guac_terminal_operation
  margin : Int
  char_width : Int
  char_height : Int
  pixel_width : Int
  pixel_height : Int
  font_name : String
  font_size : Int
  palette : Fin 256 → guac_terminal_color
  default_foreground : guac_terminal_color
  default_background : guac_terminal_color
  glyph_foreground : guac_terminal_color
  glyph_background : guac_terminal_color
  text_selected : Bool
  selection_start_row : Int
  selection_start_column : Int
  selection_end_row : Int
  selection_end_column : Int
  unflushed_set : Bool
  surface : Int → Int → guac_terminal_char

/-- Modelled from the spec: `record_set(row, start_col, end_col, character)`
(`guac_terminal_display_set_columns` in `display.h`; body absent from the
snapshot) sets every cell in `[start_col, end_col)` of `row` to
`Set(character)`, clamping/ignoring cells outside the grid bounds, and sets
the "unflushed set pending" flag. -/
def guac_terminal_display_set_columns (display : guac_terminal_display)
    (row : Int) (start_column : Int) (end_column : Int)
    (character : guac_terminal_char) : guac_terminal_display :=
  { display with
    operations := fun r c =>
      if r = row ∧ start_column ≤ c ∧ c < end_column ∧
          0 ≤ r ∧ r < display.height ∧ 0 ≤ c ∧ c < display.width then
        guac_terminal_operation.GUAC_CHAR_SET character
      else
        display.operations r c,
    unflushed_set := true }

/-- Modelled from the spec: `record_copy` for a run of columns in one row
(`guac_terminal_display_copy_columns` in `display.h`; body absent from the
snapshot) sets each destination cell's pending operation to
`CopyFrom(row, source_column)` for source columns in
`[start_column, end_column]`, clamping/ignoring destinations or sources
outside the grid bounds; never a fault. -/
def guac_terminal_display_copy_columns (display : guac_terminal_display)
    (row : Int) (start_column : Int) (end_column : Int)
    (offset : Int) : guac_terminal_display :=
  { display with
    operations := fun r c =>
      if r = row ∧ start_column ≤ c - offset ∧ c - offset ≤ end_column ∧
          0 ≤ r ∧ r < display.height ∧ 0 ≤ c ∧ c < display.width ∧
          0 ≤ c - offset ∧ c - offset < display.width then
        guac_terminal_operation.GUAC_CHAR_COPY row (c - offset)
      else
        display.operations r c }

/-- Modelled from the spec: `record_copy` for entire rows
(`guac_terminal_display_copy_rows` in `display.h`; body absent from the
snapshot) sets each destination cell's pending operation to
`CopyFrom(source_row, column)` for source rows in `[start_row, end_row]`,
clamping/ignoring destinations or sources outside the grid bounds; never a
fault. -/
def guac_terminal_display_copy_rows (display : guac_terminal_display)
    (start_row : Int) (end_row : Int) (offset : Int) : guac_terminal_display :=
  { display with
    operations := fun r c =>
      if start_row ≤ r - offset ∧ r - offset ≤ end_row ∧
          0 ≤ r ∧ r < display.height ∧ 0 ≤ c ∧ c < display.width ∧
          0 ≤ r - offset ∧ r - offset < display.height then
        guac_terminal_operation.GUAC_CHAR_COPY (r - offset) c
      else
        display.operations r c }

/-- All visible cell coordinates of the display, in row-major order. -/
def guac_terminal_display.cellList (display : guac_terminal_display) :
    List (Int × Int) :=
  (List.range display.height.toNat).flatMap fun (r : Nat) =>
    (List.range display.width.toNat).map fun (c : Nat) =>
      ((r : Int), (c : Int))

/-- Modelled from the spec: the final value a cell takes at flush time.
A pending `Set` yields its literal character; a pending `CopyFrom` yields
the *pre-flush* committed surface content of the source cell (the spec's
snapshot-then-resolve strategy: copy resolution never observes a value
already resolved in the same flush pass); `NoOp`, or any coordinate outside
the grid, leaves the committed content unchanged. -/
def guac_terminal_display.resolve (display : guac_terminal_display)
    (r : Int) (c : Int) : guac_terminal_char :=
  if 0 ≤ r ∧ r < display.height ∧ 0 ≤ c ∧ c < display.width then
    match display.operations r c with
    | guac_terminal_operation.GUAC_CHAR_NOP => display.surface r c
    | guac_terminal_operation.GUAC_CHAR_COPY sr sc => display.surface sr sc
    | guac_terminal_operation.GUAC_CHAR_SET ch => ch
  else
    display.surface r c

/-- Modelled from the spec: the surface-adapter calls a flush issues,
walking the grid in row-major order; a `NoOp` cell issues no call. -/
def guac_terminal_display.flushCalls (display : guac_terminal_display) :
    List guac_surface_call :=
  display.cellList.flatMap fun pos =>
    match display.operations pos.1 pos.2 with
    | guac_terminal_operation.GUAC_CHAR_NOP => []
    | guac_terminal_operation.GUAC_CHAR_COPY sr sc =>
        [guac_surface_call.copy sr sc pos.1 pos.2]
    | guac_terminal_operation.GUAC_CHAR_SET ch =>
        [guac_surface_call.draw pos.1 pos.2 ch]

/-- Modelled from the spec: `flush()` (`guac_terminal_display_flush_operations`
in `display.h`; body absent from the snapshot) resolves every grid cell
exactly once against the pre-flush surface snapshot, issues the resulting
surface-adapter calls, resets every grid cell to `NoOp` and clears the
"unflushed set pending" flag. Returns the post-flush display and the list
of surface-adapter calls issued. -/
def guac_terminal_display_flush_operations (display : guac_terminal_display) :
    guac_terminal_display × List guac_surface_call :=
  ({ display with
     surface := fun r c => display.resolve r c,
     operations := fun _ _ => guac_terminal_operation.GUAC_CHAR_NOP,
     unflushed_set := false },
   display.flushCalls)

/-- Modelled from the spec: `assign_color(index, color)`
(`guac_terminal_display_assign_color` in `display.h`; body absent from the
snapshot) writes `color` into `palette[index]` and returns zero; if
`index` is outside `[0,256)` the assignment is ignored (no mutation) and a
non-zero result is returned. -/
def guac_terminal_display_assign_color (display : guac_terminal_display)
    (index : Int) (color : guac_terminal_color) :
    guac_terminal_display × Int :=
  if 0 ≤ index ∧ index < 256 then
    ({ display with
       palette := fun i => if (i : Int) = index then color else display.palette i },
     0)
  else
    (display, 1)

/-- Modelled from the spec: `lookup_color(index, out)`
(`guac_terminal_display_lookup_color` in `display.h`; body absent from the
snapshot) reads `palette[index]` into the out parameter and returns zero;
if `index` is outside `[0,256)` the out parameter is left unchanged and a
non-zero result is returned. The out parameter is modelled by passing its
prior value and returning its final value. -/
def guac_terminal_display_lookup_color (display : guac_terminal_display)
    (index : Int) (color : guac_terminal_color) :
    guac_terminal_color × Int :=
  if h : 0 ≤ index ∧ index < 256 then
    (display.palette ⟨index.toNat, by omega⟩, 0)
  else
    (color, 1)

/-- Modelled from the spec: `resize(new_width, new_height)`
(`guac_terminal_display_resize` in `display.h`; body absent from the
snapshot). Resizing to an unchanged size is a no-op; otherwise the
operation grid is reallocated at the new dimensions preserving no prior
pending state (every slot `NoOp`), and the pixel extents are recomputed
from the existing `char_width`/`char_height`/`margin`. Committed surface
content is not redrawn by resize itself. -/
def guac_terminal_display_resize (display : guac_terminal_display)
    (width : Int) (height : Int) : guac_terminal_display :=
  if display.width = width ∧ display.height = height then
    display
  else
    { display with
      width := width,
      height := height,
      operations := fun _ _ => guac_terminal_operation.GUAC_CHAR_NOP,
      pixel_width := display.margin * 2 + width * display.char_width,
      pixel_height := display.margin * 2 + height * display.char_height }

/-- Modelled from the spec: `set_font(name?, size?, dpi)`
(`guac_terminal_display_set_font` in `display.h`; body absent from the
snapshot). Font resolution and metric measurement are performed by the
external font system (Pango in the source), modelled here as the oracle
`measure : name → size → dpi → Option (char_width × char_height)`. A
`NULL` font name (keep current family) is `Option.none`; a font size of
`-1` keeps the current size. On failure (`measure` returns `none`) the
display is returned unchanged with a non-zero result; on success the font
description and pixel metrics are updated, the grid cell dimensions
`width`/`height` are not changed, and zero is returned. -/
def guac_terminal_display_set_font
    (measure : String → Int → Int → Option (Int × Int))
    (display : guac_terminal_display) (font_name : Option String)
    (font_size : Int) (dpi : Int) : guac_terminal_display × Int :=
  let name := font_name.getD display.font_name
  let size := if font_size = -1 then display.font_size else font_size
  match measure name size dpi with
  | Option.none => (display, 1)
  | Option.some metrics =>
      ({ display with
         font_name := name,
         font_size := size,
         char_width := metrics.1,
         char_height := metrics.2 },
       0)

/-- Modelled from the spec: `select(start_row, start_col, end_row, end_col)`
(`guac_terminal_display_select` in `display.h`; body absent from the
snapshot) normalizes the two endpoints into reading order (the stored
start point is the earlier point), marks selection active, and renders the
highlight on the dedicated overlay layer without touching any pending
character-cell operation. -/
def guac_terminal_display_select (display : guac_terminal_display)
    (start_row : Int) (start_col : Int) (end_row : Int) (end_col : Int) :
    guac_terminal_display :=
  if end_row < start_row ∨ (end_row = start_row ∧ end_col < start_col) then
    { display with
      text_selected := true,
      selection_start_row := end_row,
      selection_start_column := end_col,
      selection_end_row := start_row,
      selection_end_column := start_col }
  else
    { display with
      text_selected := true,
      selection_start_row := start_row,
      selection_start_column := start_col,
      selection_end_row := end_row,
      selection_end_column := end_col }

/-- Modelled from the spec: `clear_select()`
(`guac_terminal_display_clear_select` in `display.h`; body absent from the
snapshot) marks selection inactive and removes the highlight. -/
def guac_terminal_display_clear_select (display : guac_terminal_display) :
    guac_terminal_display :=
  { display with text_selected := false }

/-- One instruction of the resync ("dup") stream emitted for a joining
viewer: geometry, one palette entry, one committed cell, or the active
selection region. -/
inductive guac_dup_instruction where
  | size (width : Int) (height : Int)
  | palette_entry (index : Fin 256) (color : guac_terminal_color)
  | draw (row : Int) (column : Int) (character : guac_terminal_char)
  | select (start_row : Int) (start_column : Int) (end_row : Int)
      (end_column : Int)
deriving DecidableEq

/-- Modelled from the spec: `dup(for_new_viewer, transport)`
(`guac_terminal_display_dup` in `display.h`; body absent from the
snapshot) emits a self-contained instruction stream sufficient to recreate
the current geometry, the full 256-entry palette, the entire
already-flushed visible content cell-by-cell, and the selection overlay
state if active. It reads only committed surface state, never the pending
operation grid. -/
def guac_terminal_display_dup (display : guac_terminal_display) :
    List guac_dup_instruction :=
  [guac_dup_instruction.size display.width display.height]
    ++ ((List.finRange 256).map fun i =>
        guac_dup_instruction.palette_entry i (display.palette i))
    ++ (display.cellList.map fun pos =>
        guac_dup_instruction.draw pos.1 pos.2 (display.surface pos.1 pos.2))
    ++ (if display.text_selected then
          [guac_dup_instruction.select display.selection_start_row
            display.selection_start_column display.selection_end_row
            display.selection_end_column]
        else [])

/-- The state of a joining viewer's canvas while replaying a dup stream:
cells start blank (`none`) and become `some character` once drawn. -/
structure guac_viewer_canvas where
  width : Int
  height : Int
  cells : Int × Int → Option guac_terminal_char
  palette : Fin 256 → guac_terminal_color
  text_selected : Bool
  selection_start_row : Int
  selection_start_column : Int
  selection_end_row : Int
  selection_end_column : Int

/-- The blank canvas a fresh viewer starts from. -/
def guac_viewer_canvas.blank : guac_viewer_canvas :=
  { width := 0,
    height := 0,
    cells := fun _ => Option.none,
    palette := fun _ => { red := 0, green := 0, blue := 0 },
    text_selected := false,
    selection_start_row := 0,
    selection_start_column := 0,
    selection_end_row := 0,
    selection_end_column := 0 }

/-- Effect of one dup instruction on a viewer's canvas. -/
def guac_viewer_canvas.apply (canvas : guac_viewer_canvas)
    (ins : guac_dup_instruction) : guac_viewer_canvas :=
  match ins with
  | guac_dup_instruction.size w h => { canvas with width := w, height := h }
  | guac_dup_instruction.palette_entry i col =>
      { canvas with
        palette := fun j => if j = i then col else canvas.palette j }
  | guac_dup_instruction.draw r c ch =>
      { canvas with
        cells := fun pos => if pos = (r, c) then Option.some ch
          else canvas.cells pos }
  | guac_dup_instruction.select sr sc er ec =>
      { canvas with
        text_selected := true,
        selection_start_row := sr,
        selection_start_column := sc,
        selection_end_row := er,
        selection_end_column := ec }

/-- Replaying a dup instruction stream on a viewer's canvas. -/
def guac_viewer_canvas.replay (canvas : guac_viewer_canvas)
    (stream : List guac_dup_instruction) : guac_viewer_canvas :=
  stream.foldl guac_viewer_canvas.apply canvas

/-- One recording call of the writer path since the last flush: the three
cell-mutation entry points of `display.h`. -/
inductive guac_display_call where
  | set_columns (row : Int) (start_column : Int) (end_column : Int)
      (character : guac_terminal_char)
  | copy_columns (row : Int) (start_column : Int) (end_column : Int)
      (offset : Int)
  | copy_rows (start_row : Int) (end_row : Int) (offset : Int)
deriving DecidableEq

/-- Whether a recording call is a `set_columns` call. -/
def guac_display_call.isSet : guac_display_call → Bool
  | guac_display_call.set_columns _ _ _ _ => true
  | guac_display_call.copy_columns _ _ _ _ => false
  | guac_display_call.copy_rows _ _ _ => false

/-- Effect of one recording call on the display. -/
def guac_terminal_display.applyCall (display : guac_terminal_display) :
    guac_display_call → guac_terminal_display
  | guac_display_call.set_columns row s e ch =>
      guac_terminal_display_set_columns display row s e ch
  | guac_display_call.copy_columns row s e off =>
      guac_terminal_display_copy_columns display row s e off
  | guac_display_call.copy_rows s e off =>
      guac_terminal_display_copy_rows display s e off

/-- Effect of a sequence of recording calls on the display. -/
def guac_terminal_display.applyCalls (display : guac_terminal_display)
    (calls : List guac_display_call) : guac_terminal_display :=
  calls.foldl guac_terminal_display.applyCall display

/-- The literal redraw of one committed row at another row: one
`record_set` call per column, each setting the single-column range
`[c, c+1)` of the destination row to the source row's committed cell, as
in the spec's copy-versus-redraw equivalence. -/
def guac_terminal_display_redraw_row (display : guac_terminal_display)
    (src_row : Int) (dst_row : Int) : guac_terminal_display :=
  (List.range display.width.toNat).foldl
    (fun acc (c : Nat) =>
      guac_terminal_display_set_columns acc dst_row (c : Int) ((c : Int) + 1)
        (display.surface src_row (c : Int)))
    display

/-- A sample character cell carrying the codepoint `n`, for concrete
instantiations. -/
def exChar (n : Int) : guac_terminal_char :=
  { value := n,
    foreground := { red := 255, green := 255, blue := 255 },
    background := { red := 0, green := 0, blue := 0 },
    attributes := { bold := false, underline := false, reverse := false,
                    blink := false },
    width := 1 }

/-- A sample 4x3 display with an all-`NoOp` operation grid and a committed
surface holding a distinct character at each cell, for concrete
instantiations. -/
def exDisplay : guac_terminal_display :=
  { width := 4,
    height := 3,
    operations := fun _ _ => guac_terminal_operation.GUAC_CHAR_NOP,
    margin := 4,
    char_width := 8,
    char_height := 16,
    pixel_width := 4 * 2 + 4 * 8,
    pixel_height := 4 * 2 + 3 * 16,
    font_name := "monospace",
    font_size := 12,
    palette := fun _ => { red := 0, green := 0, blue := 0 },
    default_foreground := { red := 255, green := 255, blue := 255 },
    default_background := { red := 0, green := 0, blue := 0 },
    glyph_foreground := { red := 255, green := 255, blue := 255 },
    glyph_background := { red := 0, green := 0, blue := 0 },
    text_selected := false,
    selection_start_row := 0,
    selection_start_column := 0,
    selection_end_row := 0,
    selection_end_column := 0,
    unflushed_set := false,
    surface := fun r c => exChar (r * 10 + c) }

/-- A sample font-measuring oracle resolving only 12-point "monospace" to
8x16 pixel cells, for concrete instantiations. -/
def exMeasure (name : String) (size : Int) (dpi : Int) :
    Option (Int × Int) :=
  if name = "monospace" ∧ size = 12 ∧ dpi = 96 then
    Option.some (8, 16)
  else
    Option.none

/-- A list of element-keyed singleton runs flat-mapped to `[]` is `[]`. -/
theorem flatMap_eq_nil_of_forall {α β : Type} (l : List α) (f : α → List β)
    (h : ∀ x ∈ l, f x = []) : l.flatMap f = [] := by
  induction l with
  | nil => rfl
  | cons a t ih =>
      rw [List.flatMap_cons, h a (List.mem_cons_self a t), List.nil_append]
      exact ih fun x hx => h x (List.mem_cons_of_mem a hx)

/-- C4: for every index outside `[0,256)` (in particular `-1` and `256`),
`guac_terminal_display_assign_color` fails without mutating the palette and
`guac_terminal_display_lookup_color` fails without mutating the output
color, both returning non-zero; for every index in `[0,256)`, an
`assign_color` followed by a `lookup_color` at the same index succeeds
(returns zero) and yields exactly the assigned color. -/
theorem guac_palette_bounds (d : guac_terminal_display) (index : Int)
    (color out : guac_terminal_color) :
    ((index < 0 ∨ 256 ≤ index) →
      guac_terminal_display_assign_color d index color = (d, 1) ∧
      guac_terminal_display_lookup_color d index out = (out, 1)) ∧
    (0 ≤ index → index < 256 →
      (guac_terminal_display_assign_color d index color).2 = 0 ∧
      guac_terminal_display_lookup_color
          (guac_terminal_display_assign_color d index color).1 index out
        = (color, 0)) := by
  constructor
  · intro h
    have hn : ¬(0 ≤ index ∧ index < 256) := by omega
    constructor
    · simp [guac_terminal_display_assign_color, hn]
    · simp [guac_terminal_display_lookup_color, hn]
  · intro h1 h2
    have hp : 0 ≤ index ∧ index < 256 := ⟨h1, h2⟩
    constructor
    · simp [guac_terminal_display_assign_color, hp]
    · simp [guac_terminal_display_assign_color,
        guac_terminal_display_lookup_color, hp, Int.toNat_of_nonneg h1]

/-- Witness for C4 at indices `-1`, `256` and `7` on the sample display. -/
theorem guac_palette_bounds_witness :
    guac_terminal_display_assign_color exDisplay (-1)
        { red := 1, green := 2, blue := 3 } = (exDisplay, 1) ∧
    guac_terminal_display_lookup_color exDisplay 256
        { red := 9, green := 9, blue := 9 }
      = ({ red := 9, green := 9, blue := 9 }, 1) ∧
    guac_terminal_display_lookup_color
        (guac_terminal_display_assign_color exDisplay 7
          { red := 1, green := 2, blue := 3 }).1 7
        { red := 9, green := 9, blue := 9 }
      = ({ red := 1, green := 2, blue := 3 }, 0) := by
  refine ⟨?_, ?_, ?_⟩
  · exact ((guac_palette_bounds exDisplay (-1)
      { red := 1, green := 2, blue := 3 }
      { red := 9, green := 9, blue := 9 }).1 (by decide)).1
  · exact ((guac_palette_bounds exDisplay 256
      { red := 1, green := 2, blue := 3 }
      { red := 9, green := 9, blue := 9 }).1 (by decide)).2
  · exact ((guac_palette_bounds exDisplay 7
      { red := 1, green := 2, blue := 3 }
      { red := 9, green := 9, blue := 9 }).2 (by decide) (by decide)).2

/-- C3: after `guac_terminal_display_flush_operations` completes, every
operation-grid cell is `NoOp` and the `unflushed_set` flag is false; a
flush invoked when every cell is `NoOp` performs no surface-adapter calls,
so a second flush immediately following a flush issues no surface-adapter
calls. -/
theorem guac_flush_resets_grid (d : guac_terminal_display) :
    (∀ r c, (guac_terminal_display_flush_operations d).1.operations r c
        = guac_terminal_operation.GUAC_CHAR_NOP) ∧
    (guac_terminal_display_flush_operations d).1.unflushed_set = false ∧
    ((∀ r c, d.operations r c = guac_terminal_operation.GUAC_CHAR_NOP) →
      (guac_terminal_display_flush_operations d).2 = []) ∧
    (guac_terminal_display_flush_operations
        (guac_terminal_display_flush_operations d).1).2 = [] := by
  refine ⟨fun r c => rfl, rfl, ?_, ?_⟩
  · intro h
    exact flatMap_eq_nil_of_forall _ _ fun pos _ => by
      rw [h pos.1 pos.2]
  · exact flatMap_eq_nil_of_forall _ _ fun pos _ => rfl

/-- Witness for C3 on the sample display. -/
theorem guac_flush_resets_grid_witness :
    (guac_terminal_display_flush_operations exDisplay).2 = [] ∧
    (guac_terminal_display_flush_operations
        (guac_terminal_display_flush_operations exDisplay).1).2 = [] :=
  ⟨(guac_flush_resets_grid exDisplay).2.2.1 fun _ _ => rfl,
   (guac_flush_resets_grid exDisplay).2.2.2⟩

/-- C8: `guac_terminal_display_select` is order-independent in its
endpoints: swapping the two endpoints produces an identical display state;
the stored start point is always the earlier point in reading order,
`text_selected` becomes true, and no pending character-cell operation is
mutated. -/
theorem guac_select_order_independent (d : guac_terminal_display)
    (r1 c1 r2 c2 : Int) :
    guac_terminal_display_select d r1 c1 r2 c2
      = guac_terminal_display_select d r2 c2 r1 c1 ∧
    (guac_terminal_display_select d r1 c1 r2 c2).text_selected = true ∧
    (guac_terminal_display_select d r1 c1 r2 c2).operations = d.operations ∧
    ((guac_terminal_display_select d r1 c1 r2 c2).selection_start_row
        < (guac_terminal_display_select d r1 c1 r2 c2).selection_end_row ∨
      ((guac_terminal_display_select d r1 c1 r2 c2).selection_start_row
          = (guac_terminal_display_select d r1 c1 r2 c2).selection_end_row ∧
        (guac_terminal_display_select d r1 c1 r2 c2).selection_start_column
          ≤ (guac_terminal_display_select d r1 c1 r2 c2).selection_end_column)) := by
  unfold guac_terminal_display_select
  refine ⟨?_, ?_, ?_, ?_⟩
  · split_ifs with h1 h2 h2
    · exfalso; omega
    · rfl
    · rfl
    · have hr : r1 = r2 := by omega
      have hc : c1 = c2 := by omega
      subst hr; subst hc; rfl
  · split_ifs <;> rfl
  · split_ifs <;> rfl
  · split_ifs with h1 <;> dsimp only <;> omega

/-- C7: `guac_terminal_display_set_font` returns non-zero and leaves the
display (in particular `char_width`, `char_height` and the stored font
description) entirely unchanged when the requested font cannot be
measured; on success it returns zero and updates `char_width`/`char_height`
from the new metrics but does not change the grid cell dimensions
`width`/`height`. -/
theorem guac_set_font_spec (measure : String → Int → Int → Option (Int × Int))
    (d : guac_terminal_display) (font_name : Option String)
    (font_size dpi : Int) :
    (measure (font_name.getD d.font_name)
        (if font_size = -1 then d.font_size else font_size) dpi = Option.none →
      guac_terminal_display_set_font measure d font_name font_size dpi
        = (d, 1)) ∧
    (∀ cw ch,
      measure (font_name.getD d.font_name)
          (if font_size = -1 then d.font_size else font_size) dpi
        = Option.some (cw, ch) →
      (guac_terminal_display_set_font measure d font_name font_size dpi).2
          = 0 ∧
      (guac_terminal_display_set_font measure d font_name font_size
          dpi).1.char_width = cw ∧
      (guac_terminal_display_set_font measure d font_name font_size
          dpi).1.char_height = ch ∧
      (guac_terminal_display_set_font measure d font_name font_size
          dpi).1.width = d.width ∧
      (guac_terminal_display_set_font measure d font_name font_size
          dpi).1.height = d.height ∧
      (guac_terminal_display_set_font measure d font_name font_size
          dpi).1.font_name = font_name.getD d.font_name) := by
  constructor
  · intro h
    simp [guac_terminal_display_set_font, h]
  · intro cw ch h
    simp [guac_terminal_display_set_font, h]

/-- Witness for C7: an unresolvable font leaves the sample display
unchanged with a non-zero result; a measurable font updates the pixel
metrics and keeps the cell dimensions. -/
theorem guac_set_font_spec_witness :
    guac_terminal_display_set_font exMeasure exDisplay
        (Option.some "comic") 12 96 = (exDisplay, 1) ∧
    (guac_terminal_display_set_font exMeasure exDisplay Option.none (-1)
        96).2 = 0 ∧
    (guac_terminal_display_set_font exMeasure exDisplay Option.none (-1)
        96).1.width = exDisplay.width := by
  refine ⟨?_, ?_, ?_⟩
  · exact (guac_set_font_spec exMeasure exDisplay (Option.some "comic")
      12 96).1 (by decide)
  · exact ((guac_set_font_spec exMeasure exDisplay Option.none (-1) 96).2
      8 16 (by decide)).1
  · exact ((guac_set_font_spec exMeasure exDisplay Option.none (-1) 96).2
      8 16 (by decide)).2.2.2.1

/-- C6: `guac_terminal_display_resize` is a no-op when the new dimensions
equal the current ones; otherwise it discards all pending operations (the
reallocated grid holds only `NoOp`), recomputes the pixel extents from the
existing `char_width`/`char_height`/`margin`, keeps the committed surface
content, and a flush performed after the resize replays none of the
discarded operations (the committed content is unchanged by it). -/
theorem guac_resize_spec (d : guac_terminal_display) (w h : Int) :
    (d.width = w ∧ d.height = h → guac_terminal_display_resize d w h = d) ∧
    (¬(d.width = w ∧ d.height = h) →
      (guac_terminal_display_resize d w h).width = w ∧
      (guac_terminal_display_resize d w h).height = h ∧
      (∀ r c, (guac_terminal_display_resize d w h).operations r c
          = guac_terminal_operation.GUAC_CHAR_NOP) ∧
      (guac_terminal_display_resize d w h).pixel_width
          = d.margin * 2 + w * d.char_width ∧
      (guac_terminal_display_resize d w h).pixel_height
          = d.margin * 2 + h * d.char_height ∧
      (guac_terminal_display_resize d w h).surface = d.surface ∧
      ∀ r c, (guac_terminal_display_flush_operations
          (guac_terminal_display_resize d w h)).1.surface r c
        = d.surface r c) := by
  constructor
  · intro hsame
    simp [guac_terminal_display_resize, hsame]
  · intro hdiff
    have hres : guac_terminal_display_resize d w h
        = { d with
            width := w,
            height := h,
            operations := fun _ _ => guac_terminal_operation.GUAC_CHAR_NOP,
            pixel_width := d.margin * 2 + w * d.char_width,
            pixel_height := d.margin * 2 + h * d.char_height } := by
      unfold guac_terminal_display_resize
      rw [if_neg hdiff]
    rw [hres]
    refine ⟨rfl, rfl, fun r c => rfl, rfl, rfl, rfl, fun r c => ?_⟩
    simp only [guac_terminal_display_flush_operations,
      guac_terminal_display.resolve]
    split
    · rfl
    · rfl

/-- Witness for C6: a `Set` queued at `(0,0)` on the sample display is
discarded by a resize to 5x4 and not replayed by the following flush,
while committed content is preserved; resizing to the unchanged 4x3 size
is a no-op. -/
theorem guac_resize_spec_witness :
    guac_terminal_display_resize exDisplay 4 3 = exDisplay ∧
    (guac_terminal_display_resize
        (guac_terminal_display_set_columns exDisplay 0 0 1 (exChar 99))
        5 4).operations 0 0 = guac_terminal_operation.GUAC_CHAR_NOP ∧
    (guac_terminal_display_flush_operations
        (guac_terminal_display_resize
          (guac_terminal_display_set_columns exDisplay 0 0 1 (exChar 99))
          5 4)).1.surface 0 0 = exDisplay.surface 0 0 := by
  refine ⟨?_, ?_, ?_⟩
  · exact (guac_resize_spec exDisplay 4 3).1 (by constructor <;> rfl)
  · exact ((guac_resize_spec
      (guac_terminal_display_set_columns exDisplay 0 0 1 (exChar 99))
      5 4).2 (by intro hc; exact absurd hc.1 (by decide))).2.2.1 0 0
  · exact ((guac_resize_spec
      (guac_terminal_display_set_columns exDisplay 0 0 1 (exChar 99))
      5 4).2 (by intro hc; exact absurd hc.1 (by decide))).2.2.2.2.2.2 0 0

/-- Each recording call preserves the grid dimensions. -/
theorem applyCall_dims (d : guac_terminal_display) (call : guac_display_call) :
    (d.applyCall call).width = d.width ∧ (d.applyCall call).height = d.height := by
  cases call <;> exact ⟨rfl, rfl⟩

/-- A sequence of recording calls preserves the grid dimensions. -/
theorem applyCalls_dims (calls : List guac_display_call) :
    ∀ d : guac_terminal_display,
      (d.applyCalls calls).width = d.width ∧
      (d.applyCalls calls).height = d.height := by
  induction calls with
  | nil => exact fun d => ⟨rfl, rfl⟩
  | cons call t ih =>
      intro d
      have h1 := applyCall_dims d call
      have h2 := ih (d.applyCall call)
      exact ⟨h1.1 ▸ h2.1, h1.2 ▸ h2.2⟩

/-- C2: the operation grid holds exactly one pending operation per cell (it
is a total mapping from coordinates to a single `guac_terminal_operation`),
and last write wins: whatever pending operations an arbitrary prior call
sequence left at a cell, recording a new `Set` or `CopyFrom` on that cell
makes the new operation the cell's unique pending operation, discarding
the earlier one. -/
theorem guac_last_write_wins (d : guac_terminal_display)
    (prior : List guac_display_call) (row s e off r c : Int)
    (ch : guac_terminal_char)
    (hb : 0 ≤ r ∧ r < d.height ∧ 0 ≤ c ∧ c < d.width) :
    (r = row → s ≤ c → c < e →
      (guac_terminal_display_set_columns (d.applyCalls prior) row s e
          ch).operations r c
        = guac_terminal_operation.GUAC_CHAR_SET ch) ∧
    (r = row → s ≤ c - off → c - off ≤ e → 0 ≤ c - off → c - off < d.width →
      (guac_terminal_display_copy_columns (d.applyCalls prior) row s e
          off).operations r c
        = guac_terminal_operation.GUAC_CHAR_COPY row (c - off)) := by
  have hdims := applyCalls_dims prior d
  constructor
  · intro h1 h2 h3
    simp only [guac_terminal_display_set_columns]
    rw [if_pos]
    exact ⟨h1, h2, h3, hb.1, hdims.2 ▸ hb.2.1, hb.2.2.1, hdims.1 ▸ hb.2.2.2⟩
  · intro h1 h2 h3 h4 h5
    simp only [guac_terminal_display_copy_columns]
    rw [if_pos]
    exact ⟨h1, h2, h3, hb.1, hdims.2 ▸ hb.2.1, hb.2.2.1, hdims.1 ▸ hb.2.2.2,
      h4, hdims.1 ▸ h5⟩

/-- Witness for C2: on the sample display, after a prior `Set` at `(0,0)`,
a `CopyFrom` recorded on the same cell governs alone; after a prior
`CopyFrom`, a `Set` governs alone. -/
theorem guac_last_write_wins_witness :
    (guac_terminal_display_copy_columns
        (exDisplay.applyCalls [guac_display_call.set_columns 0 0 1 (exChar 5)])
        0 1 2 (-1)).operations 0 0
      = guac_terminal_operation.GUAC_CHAR_COPY 0 1 ∧
    (guac_terminal_display_set_columns
        (exDisplay.applyCalls [guac_display_call.copy_columns 0 1 2 (-1)])
        0 0 1 (exChar 5)).operations 0 0
      = guac_terminal_operation.GUAC_CHAR_SET (exChar 5) := by
  constructor
  · have h := (guac_last_write_wins exDisplay
      [guac_display_call.set_columns 0 0 1 (exChar 5)] 0 1 2 (-1) 0 0
      (exChar 5) (by decide)).2 rfl (by decide) (by decide) (by decide)
      (by decide)
    simpa using h
  · exact (guac_last_write_wins exDisplay
      [guac_display_call.copy_columns 0 1 2 (-1)] 0 0 1 0 0 0
      (exChar 5) (by decide)).1 rfl (by decide) (by decide)

/-- C9: for every copy or set request whose row/column range extends beyond
the grid bounds, the out-of-range portion is ignored — no operation is ever
written outside `[0,height) × [0,width)` — and the in-range portion (if
any) is recorded normally; every such call is total (never a fault). -/
theorem guac_oob_ranges_clamped (d : guac_terminal_display)
    (row s e off sr er r c : Int) (ch : guac_terminal_char) :
    (¬(0 ≤ r ∧ r < d.height ∧ 0 ≤ c ∧ c < d.width) →
      (guac_terminal_display_copy_columns d row s e off).operations r c
          = d.operations r c ∧
      (guac_terminal_display_copy_rows d sr er off).operations r c
          = d.operations r c ∧
      (guac_terminal_display_set_columns d row s e ch).operations r c
          = d.operations r c) ∧
    ((0 ≤ r ∧ r < d.height ∧ 0 ≤ c ∧ c < d.width) →
      (r = row → s ≤ c → c < e →
        (guac_terminal_display_set_columns d row s e ch).operations r c
          = guac_terminal_operation.GUAC_CHAR_SET ch) ∧
      (sr ≤ r - off → r - off ≤ er → 0 ≤ r - off → r - off < d.height →
        (guac_terminal_display_copy_rows d sr er off).operations r c
          = guac_terminal_operation.GUAC_CHAR_COPY (r - off) c)) := by
  constructor
  · intro hout
    refine ⟨?_, ?_, ?_⟩
    · simp only [guac_terminal_display_copy_columns]
      rw [if_neg]
      intro hc
      exact hout ⟨hc.2.2.2.1, hc.2.2.2.2.1, hc.2.2.2.2.2.1, hc.2.2.2.2.2.2.1⟩
    · simp only [guac_terminal_display_copy_rows]
      rw [if_neg]
      intro hc
      exact hout ⟨hc.2.2.1, hc.2.2.2.1, hc.2.2.2.2.1, hc.2.2.2.2.2.1⟩
    · simp only [guac_terminal_display_set_columns]
      rw [if_neg]
      intro hc
      exact hout ⟨hc.2.2.2.1, hc.2.2.2.2.1, hc.2.2.2.2.2.1, hc.2.2.2.2.2.2⟩
  · intro hin
    constructor
    · intro h1 h2 h3
      simp only [guac_terminal_display_set_columns]
      rw [if_pos]
      exact ⟨h1, h2, h3, hin.1, hin.2.1, hin.2.2.1, hin.2.2.2⟩
    · intro h1 h2 h3 h4
      simp only [guac_terminal_display_copy_rows]
      rw [if_pos]
      exact ⟨h1, h2, hin.1, hin.2.1, hin.2.2.1, hin.2.2.2, h3, h4⟩

/-- Witness for C9: a set request on the sample 4x3 display whose column
range `[2, 100)` runs past the right edge writes nothing at the
out-of-grid cell `(0, 50)` while recording the in-range cell `(0, 3)`
normally; a row copy with out-of-range destination rows writes nothing at
`(7, 0)`. -/
theorem guac_oob_ranges_clamped_witness :
    (guac_terminal_display_set_columns exDisplay 0 2 100
        (exChar 1)).operations 0 50 = exDisplay.operations 0 50 ∧
    (guac_terminal_display_copy_rows exDisplay 0 2 5).operations 7 0
        = exDisplay.operations 7 0 ∧
    (guac_terminal_display_set_columns exDisplay 0 2 100
        (exChar 1)).operations 0 3
        = guac_terminal_operation.GUAC_CHAR_SET (exChar 1) := by
  refine ⟨?_, ?_, ?_⟩
  · exact ((guac_oob_ranges_clamped exDisplay 0 2 100 0 0 2 0 50
      (exChar 1)).1 (by decide)).2.2
  · exact ((guac_oob_ranges_clamped exDisplay 0 2 100 5 0 2 7 0
      (exChar 1)).1 (by decide)).2.1
  · exact (((guac_oob_ranges_clamped exDisplay 0 2 100 0 0 2 0 3
      (exChar 1)).2 (by decide)).1 rfl (by decide) (by decide))

/-- The `unflushed_set` flag after a call sequence: true exactly when it
was already true or the sequence contains a `set_columns` call. -/
theorem applyCalls_unflushed_set (calls : List guac_display_call) :
    ∀ d : guac_terminal_display,
      (d.applyCalls calls).unflushed_set
        = (d.unflushed_set || calls.any guac_display_call.isSet) := by
  induction calls with
  | nil => intro d; simp [guac_terminal_display.applyCalls]
  | cons call t ih =>
      intro d
      have step : (d.applyCall call).unflushed_set
          = (d.unflushed_set || call.isSet) := by
        cases call with
        | set_columns row s e ch =>
            simp [guac_terminal_display.applyCall,
              guac_terminal_display_set_columns, guac_display_call.isSet]
        | copy_columns row s e off =>
            simp [guac_terminal_display.applyCall,
              guac_terminal_display_copy_columns, guac_display_call.isSet]
        | copy_rows s e off =>
            simp [guac_terminal_display.applyCall,
              guac_terminal_display_copy_rows, guac_display_call.isSet]
      have htail : (d.applyCalls (call :: t)).unflushed_set
          = ((d.applyCall call).applyCalls t).unflushed_set := rfl
      rw [htail, ih (d.applyCall call), step, List.any_cons, Bool.or_assoc]

/-- C10: the `unflushed_set` flag is raised only by recording `Set`
operations: starting from a flushed display, after any call sequence the
flag is true exactly when the sequence contains a `set_columns` call — in
particular it remains false when only `copy_columns`/`copy_rows` calls were
recorded, even though such copies do leave pending `GUAC_CHAR_COPY`
operations in the grid. -/
theorem guac_unflushed_set_only_by_sets (d : guac_terminal_display)
    (calls : List guac_display_call) (s e off r c : Int)
    (hflushed : d.unflushed_set = false) :
    (d.applyCalls calls).unflushed_set
        = calls.any guac_display_call.isSet ∧
    ((s ≤ r - off ∧ r - off ≤ e ∧ 0 ≤ r ∧ r < d.height ∧ 0 ≤ c ∧
        c < d.width ∧ 0 ≤ r - off ∧ r - off < d.height) →
      (guac_terminal_display_copy_rows d s e off).operations r c
          = guac_terminal_operation.GUAC_CHAR_COPY (r - off) c ∧
      (guac_terminal_display_copy_rows d s e off).unflushed_set = false) := by
  constructor
  · rw [applyCalls_unflushed_set calls d, hflushed, Bool.false_or]
  · intro hc
    constructor
    · simp only [guac_terminal_display_copy_rows]
      rw [if_pos hc]
    · exact hflushed

/-- Witness for C10: on the sample (flushed) display, a row copy leaves a
pending `GUAC_CHAR_COPY` at `(1,0)` with the flag still false, while a
sequence holding a `set_columns` call raises the flag. -/
theorem guac_unflushed_set_only_by_sets_witness :
    (exDisplay.applyCalls [guac_display_call.copy_rows 0 0 1,
        guac_display_call.copy_columns 0 0 1 1]).unflushed_set = false ∧
    (guac_terminal_display_copy_rows exDisplay 0 0 1).operations 1 0
        = guac_terminal_operation.GUAC_CHAR_COPY 0 0 ∧
    (guac_terminal_display_copy_rows exDisplay 0 0 1).unflushed_set
        = false ∧
    (exDisplay.applyCalls [guac_display_call.copy_rows 0 0 1,
        guac_display_call.set_columns 0 0 1 (exChar 2)]).unflushed_set
      = true := by
  have h1 := guac_unflushed_set_only_by_sets exDisplay
    [guac_display_call.copy_rows 0 0 1,
      guac_display_call.copy_columns 0 0 1 1] 0 1 1 1 0 rfl
  have h2 := guac_unflushed_set_only_by_sets exDisplay
    [guac_display_call.copy_rows 0 0 1,
      guac_display_call.set_columns 0 0 1 (exChar 2)] 0 1 1 1 0 rfl
  have h3 := (h1.2 (by decide))
  have hcopy : (guac_terminal_display_copy_rows exDisplay 0 0 1).operations
      1 0 = guac_terminal_operation.GUAC_CHAR_COPY (1 - 1) 0 := h3.1
  refine ⟨h1.1, ?_, h3.2, h2.1⟩
  rw [hcopy]
  norm_num

/-- Resolution of a cell whose pending operation is `NoOp` leaves the
committed content unchanged. -/
theorem resolve_of_nop (d : guac_terminal_display) (r c : Int)
    (h : d.operations r c = guac_terminal_operation.GUAC_CHAR_NOP) :
    d.resolve r c = d.surface r c := by
  unfold guac_terminal_display.resolve
  rw [h]
  split
  · rfl
  · rfl

/-- Resolution of an in-bounds cell whose pending operation is `CopyFrom`
yields the pre-flush committed content of the source cell. -/
theorem resolve_of_copy (d : guac_terminal_display) (r c sr sc : Int)
    (hin : 0 ≤ r ∧ r < d.height ∧ 0 ≤ c ∧ c < d.width)
    (h : d.operations r c = guac_terminal_operation.GUAC_CHAR_COPY sr sc) :
    d.resolve r c = d.surface sr sc := by
  unfold guac_terminal_display.resolve
  rw [if_pos hin, h]

/-- Resolution of an in-bounds cell whose pending operation is `Set`
yields the literal character. -/
theorem resolve_of_set (d : guac_terminal_display) (r c : Int)
    (ch : guac_terminal_char)
    (hin : 0 ≤ r ∧ r < d.height ∧ 0 ≤ c ∧ c < d.width)
    (h : d.operations r c = guac_terminal_operation.GUAC_CHAR_SET ch) :
    d.resolve r c = ch := by
  unfold guac_terminal_display.resolve
  rw [if_pos hin, h]

/-- Characterization of the literal-redraw fold: folding single-column
`record_set` calls of the source row's committed cells over a column list
preserves dimensions and committed surface, and records a `Set` of the
source row's cell at exactly the listed in-bounds columns of the
destination row. -/
theorem redraw_fold_spec (d : guac_terminal_display) (src dst : Int)
    (l : List Nat) :
    ∀ acc : guac_terminal_display,
      acc.width = d.width → acc.height = d.height → acc.surface = d.surface →
      (l.foldl (fun a (c : Nat) => guac_terminal_display_set_columns a dst
          (c : Int) ((c : Int) + 1) (d.surface src (c : Int))) acc).width = d.width ∧
      (l.foldl (fun a (c : Nat) => guac_terminal_display_set_columns a dst
          (c : Int) ((c : Int) + 1) (d.surface src (c : Int))) acc).height = d.height ∧
      (l.foldl (fun a (c : Nat) => guac_terminal_display_set_columns a dst
          (c : Int) ((c : Int) + 1) (d.surface src (c : Int))) acc).surface
        = d.surface ∧
      ∀ r c',
        (l.foldl (fun a (c : Nat) => guac_terminal_display_set_columns a dst
            (c : Int) ((c : Int) + 1) (d.surface src (c : Int)))
            acc).operations r c'
          = if r = dst ∧ (∃ n ∈ l, (n : Int) = c') ∧
                0 ≤ r ∧ r < d.height ∧ 0 ≤ c' ∧ c' < d.width then
              guac_terminal_operation.GUAC_CHAR_SET (d.surface src c')
            else acc.operations r c' := by
  induction l with
  | nil =>
      intro acc hw hh hs
      refine ⟨hw, hh, hs, fun r c' => ?_⟩
      rw [if_neg]
      · rfl
      · rintro ⟨-, ⟨n, hn, -⟩, -⟩
        exact absurd hn (List.not_mem_nil n)
  | cons a t ih =>
      intro acc hw hh hs
      have hstep := ih (guac_terminal_display_set_columns acc dst (a : Int)
        ((a : Int) + 1) (d.surface src (a : Int))) hw hh hs
      refine ⟨hstep.1, hstep.2.1, hstep.2.2.1, fun r c' => ?_⟩
      rw [List.foldl_cons] at *
      rw [hstep.2.2.2 r c']
      by_cases hbnd : r = dst ∧ 0 ≤ r ∧ r < d.height ∧ 0 ≤ c' ∧ c' < d.width
      · by_cases ht : ∃ n ∈ t, (n : Int) = c'
        · rw [if_pos ⟨hbnd.1, ht, hbnd.2⟩, if_pos
            ⟨hbnd.1, ht.elim fun n hn =>
              ⟨n, List.mem_cons_of_mem a hn.1, hn.2⟩, hbnd.2⟩]
        · rw [if_neg fun hc => ht hc.2.1]
          simp only [guac_terminal_display_set_columns]
          by_cases ha : (a : Int) = c'
          · rw [if_pos ⟨hbnd.1, by omega, by omega, hbnd.2.1,
              hh ▸ hbnd.2.2.1, hbnd.2.2.2.1, hw ▸ hbnd.2.2.2.2⟩,
              if_pos ⟨hbnd.1, ⟨a, List.mem_cons_self a t, ha⟩, hbnd.2⟩, ha]
          · rw [if_neg fun hc => ha (by omega), if_neg]
            rintro ⟨-, ⟨n, hn, hnc⟩, -⟩
            rcases List.mem_cons.mp hn with hna | hnt
            · exact ha (hna ▸ hnc)
            · exact ht ⟨n, hnt, hnc⟩
      · rw [if_neg fun hc => hbnd ⟨hc.1, hc.2.2⟩]
        simp only [guac_terminal_display_set_columns]
        rw [if_neg, if_neg]
        · rintro ⟨h1, -, h3, h4, h5, h6⟩
          exact hbnd ⟨h1, h3, h4, h5, h6⟩
        · rintro ⟨h1, -, -, h4, h5, h6, h7⟩
          exact hbnd ⟨h1, h4, hh ▸ h5, h6, hw ▸ h7⟩

/-- C1: recording a copy that shifts a committed row by `k` rows via
`record_copy` and flushing produces exactly the same visible content as
recording literal `Set` operations of the original committed cells at the
shifted positions and flushing: copy resolution reads the pre-flush state
of each source cell, so copy is observationally equivalent to literal
redraw. -/
theorem guac_copy_rows_equiv_redraw (d : guac_terminal_display) (r k : Int)
    (hops : ∀ r' c', d.operations r' c'
      = guac_terminal_operation.GUAC_CHAR_NOP)
    (h1 : 0 ≤ r) (h2 : r < d.height) (h3 : 0 ≤ r + k) (h4 : r + k < d.height) :
    ∀ r' c',
      (guac_terminal_display_flush_operations
          (guac_terminal_display_copy_rows d r r k)).1.surface r' c'
        = (guac_terminal_display_flush_operations
            (guac_terminal_display_redraw_row d r (r + k))).1.surface r' c' := by
  intro r' c'
  show (guac_terminal_display_copy_rows d r r k).resolve r' c'
      = (guac_terminal_display_redraw_row d r (r + k)).resolve r' c'
  obtain ⟨hYw, hYh, hYs, hYops⟩ :=
    redraw_fold_spec d r (r + k) (List.range d.width.toNat) d rfl rfl rfl
  by_cases hcell : r' = r + k ∧ 0 ≤ c' ∧ c' < d.width
  · obtain ⟨he, hc0, hcw⟩ := hcell
    have hXop : (guac_terminal_display_copy_rows d r r k).operations r' c'
        = guac_terminal_operation.GUAC_CHAR_COPY r c' := by
      simp only [guac_terminal_display_copy_rows]
      rw [if_pos ⟨by omega, by omega, by omega, by omega, hc0, hcw,
        by omega, by omega⟩]
      rw [show r' - k = r by omega]
    have hYop :
        (guac_terminal_display_redraw_row d r (r + k)).operations r' c'
          = guac_terminal_operation.GUAC_CHAR_SET (d.surface r c') := by
      have hfold := hYops r' c'
      rw [if_pos ⟨he, ⟨c'.toNat, List.mem_range.mpr (by omega), by omega⟩,
        by omega, by omega, hc0, hcw⟩] at hfold
      exact hfold
    have hinY : 0 ≤ r' ∧
        r' < (guac_terminal_display_redraw_row d r (r + k)).height ∧
        0 ≤ c' ∧
        c' < (guac_terminal_display_redraw_row d r (r + k)).width := by
      refine ⟨by omega, ?_, hc0, ?_⟩
      · rw [show (guac_terminal_display_redraw_row d r (r + k)).height
            = d.height from hYh]
        omega
      · rw [show (guac_terminal_display_redraw_row d r (r + k)).width
            = d.width from hYw]
        exact hcw
    rw [resolve_of_copy (guac_terminal_display_copy_rows d r r k) r' c' r c'
        ⟨by omega, show r' < d.height by omega, hc0, hcw⟩ hXop,
      resolve_of_set (guac_terminal_display_redraw_row d r (r + k)) r' c'
        (d.surface r c') hinY hYop]
    rfl
  · have hXop : (guac_terminal_display_copy_rows d r r k).operations r' c'
        = guac_terminal_operation.GUAC_CHAR_NOP := by
      simp only [guac_terminal_display_copy_rows]
      rw [if_neg]
      · exact hops r' c'
      · rintro ⟨a1, a2, -, -, a5, a6, -, -⟩
        exact hcell ⟨by omega, a5, a6⟩
    have hYop :
        (guac_terminal_display_redraw_row d r (r + k)).operations r' c'
          = guac_terminal_operation.GUAC_CHAR_NOP := by
      have hfold := hYops r' c'
      rw [if_neg] at hfold
      · exact hfold.trans (hops r' c')
      · rintro ⟨b1, -, -, -, b5, b6⟩
        exact hcell ⟨b1, b5, b6⟩
    rw [resolve_of_nop (guac_terminal_display_copy_rows d r r k) r' c' hXop,
      resolve_of_nop (guac_terminal_display_redraw_row d r (r + k)) r' c'
        hYop,
      show (guac_terminal_display_redraw_row d r (r + k)).surface
        = d.surface from hYs]
    rfl

/-- Witness for C1 on the sample display: shifting row 0 down by one row
via `record_copy` and flushing equals literally re-setting row 0's cells
at row 1 and flushing. -/
theorem guac_copy_rows_equiv_redraw_witness :
    (guac_terminal_display_flush_operations
        (guac_terminal_display_copy_rows exDisplay 0 0 1)).1.surface 1 2
      = (guac_terminal_display_flush_operations
          (guac_terminal_display_redraw_row exDisplay 0 1)).1.surface 1 2 :=
  guac_copy_rows_equiv_redraw exDisplay 0 1 (fun _ _ => rfl)
    (by decide) (by decide) (by decide) (by decide) 1 2

/-- A coordinate pair is in the visible-cell list exactly when it lies in
`[0,height) × [0,width)`. -/
theorem mem_cellList (d : guac_terminal_display) (r c : Int) :
    (r, c) ∈ d.cellList ↔
      0 ≤ r ∧ r < d.height ∧ 0 ≤ c ∧ c < d.width := by
  simp only [guac_terminal_display.cellList, List.mem_flatMap, List.mem_map,
    List.mem_range]
  constructor
  · rintro ⟨a, ha, b, hb, heq⟩
    injection heq with hr hc
    omega
  · rintro ⟨h1, h2, h3, h4⟩
    refine ⟨r.toNat, by omega, c.toNat, by omega, ?_⟩
    rw [Int.toNat_of_nonneg h1, Int.toNat_of_nonneg h3]

/-- Replaying a stream of palette-entry instructions updates exactly the
listed palette entries and leaves every other canvas field unchanged. -/
theorem replay_palette_entries (pal : Fin 256 → guac_terminal_color) :
    ∀ (l : List (Fin 256)) (cv : guac_viewer_canvas),
      (cv.replay (l.map fun i =>
          guac_dup_instruction.palette_entry i (pal i))).width = cv.width ∧
      (cv.replay (l.map fun i =>
          guac_dup_instruction.palette_entry i (pal i))).height = cv.height ∧
      (cv.replay (l.map fun i =>
          guac_dup_instruction.palette_entry i (pal i))).cells = cv.cells ∧
      (cv.replay (l.map fun i =>
          guac_dup_instruction.palette_entry i (pal i))).text_selected
        = cv.text_selected ∧
      (cv.replay (l.map fun i =>
          guac_dup_instruction.palette_entry i (pal i))).selection_start_row
        = cv.selection_start_row ∧
      (cv.replay (l.map fun i =>
          guac_dup_instruction.palette_entry i
            (pal i))).selection_start_column = cv.selection_start_column ∧
      (cv.replay (l.map fun i =>
          guac_dup_instruction.palette_entry i (pal i))).selection_end_row
        = cv.selection_end_row ∧
      (cv.replay (l.map fun i =>
          guac_dup_instruction.palette_entry i (pal i))).selection_end_column
        = cv.selection_end_column ∧
      ∀ j, (cv.replay (l.map fun i =>
          guac_dup_instruction.palette_entry i (pal i))).palette j
        = if j ∈ l then pal j else cv.palette j := by
  intro l
  induction l with
  | nil =>
      intro cv
      refine ⟨rfl, rfl, rfl, rfl, rfl, rfl, rfl, rfl, fun j => ?_⟩
      rw [if_neg (List.not_mem_nil j)]
      rfl
  | cons a t ih =>
      intro cv
      have h := ih (cv.apply (guac_dup_instruction.palette_entry a (pal a)))
      refine ⟨h.1, h.2.1, h.2.2.1, h.2.2.2.1, h.2.2.2.2.1, h.2.2.2.2.2.1,
        h.2.2.2.2.2.2.1, h.2.2.2.2.2.2.2.1, fun j => ?_⟩
      refine (h.2.2.2.2.2.2.2.2 j).trans ?_
      by_cases hj : j ∈ t
      · rw [if_pos hj, if_pos (List.mem_cons_of_mem a hj)]
      · rw [if_neg hj]
        show (if j = a then pal a else cv.palette j)
            = if j ∈ a :: t then pal j else cv.palette j
        by_cases hja : j = a
        · rw [if_pos hja, if_pos (List.mem_cons.mpr (Or.inl hja)), hja]
        · rw [if_neg hja, if_neg]
          intro hmem
          rcases List.mem_cons.mp hmem with hx | hx
          · exact hja hx
          · exact hj hx

/-- Replaying a stream of draw instructions fills exactly the listed cells
with the given committed content and leaves every other canvas field
unchanged. -/
theorem replay_draws (surf : Int → Int → guac_terminal_char) :
    ∀ (l : List (Int × Int)) (cv : guac_viewer_canvas),
      (cv.replay (l.map fun pos => guac_dup_instruction.draw pos.1 pos.2
          (surf pos.1 pos.2))).width = cv.width ∧
      (cv.replay (l.map fun pos => guac_dup_instruction.draw pos.1 pos.2
          (surf pos.1 pos.2))).height = cv.height ∧
      (cv.replay (l.map fun pos => guac_dup_instruction.draw pos.1 pos.2
          (surf pos.1 pos.2))).palette = cv.palette ∧
      (cv.replay (l.map fun pos => guac_dup_instruction.draw pos.1 pos.2
          (surf pos.1 pos.2))).text_selected = cv.text_selected ∧
      (cv.replay (l.map fun pos => guac_dup_instruction.draw pos.1 pos.2
          (surf pos.1 pos.2))).selection_start_row
        = cv.selection_start_row ∧
      (cv.replay (l.map fun pos => guac_dup_instruction.draw pos.1 pos.2
          (surf pos.1 pos.2))).selection_start_column
        = cv.selection_start_column ∧
      (cv.replay (l.map fun pos => guac_dup_instruction.draw pos.1 pos.2
          (surf pos.1 pos.2))).selection_end_row = cv.selection_end_row ∧
      (cv.replay (l.map fun pos => guac_dup_instruction.draw pos.1 pos.2
          (surf pos.1 pos.2))).selection_end_column
        = cv.selection_end_column ∧
      ∀ pos, (cv.replay (l.map fun pos => guac_dup_instruction.draw pos.1
          pos.2 (surf pos.1 pos.2))).cells pos
        = if pos ∈ l then Option.some (surf pos.1 pos.2)
          else cv.cells pos := by
  intro l
  induction l with
  | nil =>
      intro cv
      refine ⟨rfl, rfl, rfl, rfl, rfl, rfl, rfl, rfl, fun pos => ?_⟩
      rw [if_neg (List.not_mem_nil pos)]
      rfl
  | cons a t ih =>
      intro cv
      have h := ih (cv.apply
        (guac_dup_instruction.draw a.1 a.2 (surf a.1 a.2)))
      refine ⟨h.1, h.2.1, h.2.2.1, h.2.2.2.1, h.2.2.2.2.1, h.2.2.2.2.2.1,
        h.2.2.2.2.2.2.1, h.2.2.2.2.2.2.2.1, fun pos => ?_⟩
      refine (h.2.2.2.2.2.2.2.2 pos).trans ?_
      by_cases hp : pos ∈ t
      · rw [if_pos hp, if_pos (List.mem_cons_of_mem a hp)]
      · rw [if_neg hp]
        show (if pos = (a.1, a.2) then Option.some (surf a.1 a.2)
            else cv.cells pos)
          = if pos ∈ a :: t then Option.some (surf pos.1 pos.2)
            else cv.cells pos
        by_cases hpa : pos = a
        · rw [if_pos (by rw [hpa]), if_pos (List.mem_cons.mpr (Or.inl hpa)),
            hpa]
        · rw [if_neg (fun hc => hpa (by rw [hc])), if_neg]
          intro hmem
          rcases List.mem_cons.mp hmem with hx | hx
          · exact hpa hx
          · exact hp hx

/-- Replaying the dup stream of a display on a blank canvas reproduces the
display's geometry, full palette, committed visible content, and selection
state. -/
theorem replay_dup_spec (d : guac_terminal_display) :
    (guac_viewer_canvas.blank.replay (guac_terminal_display_dup d)).width
        = d.width ∧
    (guac_viewer_canvas.blank.replay (guac_terminal_display_dup d)).height
        = d.height ∧
    (∀ j, (guac_viewer_canvas.blank.replay
        (guac_terminal_display_dup d)).palette j = d.palette j) ∧
    (∀ r c, 0 ≤ r → r < d.height → 0 ≤ c → c < d.width →
      (guac_viewer_canvas.blank.replay
          (guac_terminal_display_dup d)).cells (r, c)
        = Option.some (d.surface r c)) ∧
    (guac_viewer_canvas.blank.replay
        (guac_terminal_display_dup d)).text_selected = d.text_selected ∧
    (d.text_selected = true →
      (guac_viewer_canvas.blank.replay
          (guac_terminal_display_dup d)).selection_start_row
          = d.selection_start_row ∧
      (guac_viewer_canvas.blank.replay
          (guac_terminal_display_dup d)).selection_start_column
          = d.selection_start_column ∧
      (guac_viewer_canvas.blank.replay
          (guac_terminal_display_dup d)).selection_end_row
          = d.selection_end_row ∧
      (guac_viewer_canvas.blank.replay
          (guac_terminal_display_dup d)).selection_end_column
          = d.selection_end_column) := by
  have hpal := replay_palette_entries d.palette (List.finRange 256)
    (guac_viewer_canvas.blank.apply
      (guac_dup_instruction.size d.width d.height))
  have hdraw := replay_draws d.surface d.cellList
    ((guac_viewer_canvas.blank.apply
        (guac_dup_instruction.size d.width d.height)).replay
      ((List.finRange 256).map fun i =>
        guac_dup_instruction.palette_entry i (d.palette i)))
  cases hsel : d.text_selected with
  | false =>
      have hsplit : guac_viewer_canvas.blank.replay
          (guac_terminal_display_dup d)
          = ((guac_viewer_canvas.blank.apply
              (guac_dup_instruction.size d.width d.height)).replay
              ((List.finRange 256).map fun i =>
                guac_dup_instruction.palette_entry i (d.palette i))).replay
              (d.cellList.map fun pos => guac_dup_instruction.draw pos.1
                pos.2 (d.surface pos.1 pos.2)) := by
        simp only [guac_terminal_display_dup, hsel,
          guac_viewer_canvas.replay, List.foldl_append, List.foldl_cons,
          List.foldl_nil, Bool.false_eq_true, if_false]
      rw [hsplit]
      refine ⟨hdraw.1.trans (hpal.1.trans rfl),
        hdraw.2.1.trans (hpal.2.1.trans rfl),
        fun j => ?_, fun r c h1 h2 h3 h4 => ?_,
        hdraw.2.2.2.1.trans (hpal.2.2.2.1.trans rfl),
        fun hx => absurd hx (by decide)⟩
      · refine ((congrFun hdraw.2.2.1 j).trans
          ((hpal.2.2.2.2.2.2.2.2 j).trans ?_))
        rw [if_pos (List.mem_finRange j)]
      · refine (hdraw.2.2.2.2.2.2.2.2 (r, c)).trans ?_
        rw [if_pos ((mem_cellList d r c).mpr ⟨h1, h2, h3, h4⟩)]
  | true =>
      have hsplit : guac_viewer_canvas.blank.replay
          (guac_terminal_display_dup d)
          = (((guac_viewer_canvas.blank.apply
              (guac_dup_instruction.size d.width d.height)).replay
              ((List.finRange 256).map fun i =>
                guac_dup_instruction.palette_entry i (d.palette i))).replay
              (d.cellList.map fun pos => guac_dup_instruction.draw pos.1
                pos.2 (d.surface pos.1 pos.2))).apply
              (guac_dup_instruction.select d.selection_start_row
                d.selection_start_column d.selection_end_row
                d.selection_end_column) := by
        simp only [guac_terminal_display_dup, hsel,
          guac_viewer_canvas.replay, List.foldl_append, List.foldl_cons,
          List.foldl_nil, if_true]
      rw [hsplit]
      refine ⟨hdraw.1.trans (hpal.1.trans rfl),
        hdraw.2.1.trans (hpal.2.1.trans rfl),
        fun j => ?_, fun r c h1 h2 h3 h4 => ?_, rfl,
        fun _ => ⟨rfl, rfl, rfl, rfl⟩⟩
      · refine ((congrFun hdraw.2.2.1 j).trans
          ((hpal.2.2.2.2.2.2.2.2 j).trans ?_))
        rw [if_pos (List.mem_finRange j)]
      · refine (hdraw.2.2.2.2.2.2.2.2 (r, c)).trans ?_
        rw [if_pos ((mem_cellList d r c).mpr ⟨h1, h2, h3, h4⟩)]

/-- C5: `guac_terminal_display_dup` reads only already-flushed surface
state — its stream is unchanged by any pending operation grid and
`unflushed_set` flag — and replaying its emitted instruction stream for a
fresh viewer from a blank canvas reproduces exactly the live display's
geometry, visible grid content, palette, and selection state. -/
theorem guac_dup_resync (d : guac_terminal_display)
    (ops : Int → Int → guac_terminal_operation) (u : Bool) :
    guac_terminal_display_dup
        { d with operations := ops, unflushed_set := u }
      = guac_terminal_display_dup d ∧
    (guac_viewer_canvas.blank.replay (guac_terminal_display_dup d)).width
        = d.width ∧
    (guac_viewer_canvas.blank.replay (guac_terminal_display_dup d)).height
        = d.height ∧
    (∀ j, (guac_viewer_canvas.blank.replay
        (guac_terminal_display_dup d)).palette j = d.palette j) ∧
    (∀ r c, 0 ≤ r → r < d.height → 0 ≤ c → c < d.width →
      (guac_viewer_canvas.blank.replay
          (guac_terminal_display_dup d)).cells (r, c)
        = Option.some (d.surface r c)) ∧
    (guac_viewer_canvas.blank.replay
        (guac_terminal_display_dup d)).text_selected = d.text_selected ∧
    (d.text_selected = true →
      (guac_viewer_canvas.blank.replay
          (guac_terminal_display_dup d)).selection_start_row
          = d.selection_start_row ∧
      (guac_viewer_canvas.blank.replay
          (guac_terminal_display_dup d)).selection_start_column
          = d.selection_start_column ∧
      (guac_viewer_canvas.blank.replay
          (guac_terminal_display_dup d)).selection_end_row
          = d.selection_end_row ∧
      (guac_viewer_canvas.blank.replay
          (guac_terminal_display_dup d)).selection_end_column
          = d.selection_end_column) := by
  have h := replay_dup_spec d
  exact ⟨rfl, h.1, h.2.1, h.2.2.1, h.2.2.2.1, h.2.2.2.2.1, h.2.2.2.2.2⟩

/-- Witness for C5 on the sample display: replaying the dup stream
reproduces the committed cell at `(1,2)`, and a display differing only in
its pending operation grid and flag emits the identical dup stream. -/
theorem guac_dup_resync_witness :
    (guac_viewer_canvas.blank.replay
        (guac_terminal_display_dup exDisplay)).cells (1, 2)
      = Option.some (exDisplay.surface 1 2) ∧
    guac_terminal_display_dup
        { exDisplay with
          operations := fun _ _ =>
            guac_terminal_operation.GUAC_CHAR_SET (exChar 7),
          unflushed_set := true }
      = guac_terminal_display_dup exDisplay := by
  have h := guac_dup_resync exDisplay
    (fun _ _ => guac_terminal_operation.GUAC_CHAR_SET (exChar 7)) true
  exact ⟨h.2.2.2.2.1 1 2 (by decide) (by decide) (by decide) (by decide),
    h.1⟩
